import Mathlib

/-!
Shallow embedding of the reactive-binding core of the fit-html repository.

The embedded code lives in `src/connect.ts` (the concatenated file holds the
historical variants of the `connect` mixin; line numbers below refer to that
file), `src/fit-element.ts` and `src/util.ts`:

* the shallow-equality comparator `shallowEqual` (`util.ts` lines 6-28,
  `connect.ts` lines 221-243);
* the store locator `getStore` (`connect.ts` lines 164-181) with the
  provider / cached-store markers `isProvider` / `isReduxStore`
  (`connect.ts` lines 213-219);
* the render scheduler `enqueueRender` (`connect.ts` lines 152-162 and, with
  the `_isConnected` liveness guard, lines 638-650; `fit-element.ts`
  lines 203-215);
* the element lifecycle `connectedCallback` / `disconnectedCallback` /
  `render` / `getProps` (`connect.ts` lines 619-694).
-/

set_option autoImplicit false

namespace FitHtml

/-- A JavaScript value as it occurs as a property of a props record.  Only
identity matters for such values (the comparator never recurses), so an
object-valued property is represented by its reference alone.  `undefined` is the
JavaScript `undefined` value, which is also what reading an absent property
yields. -/
inductive JSPrim where
  | undefined
  | null
  | prim (tag : Nat)
  | objRef (ref : Nat)
  deriving DecidableEq, Repr

/-- A JavaScript record (plain object) seen as an ordered list of
key/value bindings, as produced by `mapStateToProps` / `mapDispatchToProps`
and by `Object.assign`. -/
abbrev JSRecord := List (String × JSPrim)

/-- JavaScript strict equality `===` on property values: value equality for
primitives, reference equality for objects.  (`NaN` and other floating-point
values are outside the model.) -/
def jsStrictEq : JSPrim → JSPrim → Bool
  | .undefined, .undefined => true
  | .null, .null => true
  | .prim a, .prim b => a == b
  | .objRef a, .objRef b => a == b
  | _, _ => false

/-- `Object.keys` of a record: its keys in binding order. -/
def recKeys (r : JSRecord) : List String :=
  r.map Prod.fst

/-- JavaScript property read `r[k]`: the first binding of key `k`, or
`undefined` when the key is absent. -/
def recGetU (r : JSRecord) (k : String) : JSPrim :=
  match r.find? (fun p => p.1 == k) with
  | some p => p.2
  | none => .undefined

/-- The key-comparison loop of `shallowEqual` (`util.ts` lines 14-27):
compare the numbers of keys, then walk the keys of `a`, comparing
`a[key] !== b[key]` by strict equality (an absent key reads as `undefined`). -/
def shallowEqualFields (a b : JSRecord) : Bool :=
  if (recKeys a).length != (recKeys b).length then false
  else (recKeys a).all fun k => jsStrictEq (recGetU a k) (recGetU b k)

/-- A JavaScript value as passed to the comparator itself: `undefined`,
`null`, a primitive, or an object carrying a reference identity together
with its own enumerable fields. -/
inductive JSVal where
  | undefined
  | null
  | prim (tag : Nat)
  | obj (ref : Nat) (fields : JSRecord)
  deriving DecidableEq, Repr

/-- Strict equality `a === b` between top-level values: objects compare by
reference. -/
def jsStrictEqV : JSVal → JSVal → Bool
  | .undefined, .undefined => true
  | .null, .null => true
  | .prim a, .prim b => a == b
  | .obj r _, .obj r' _ => r == r'
  | _, _ => false

/-- JavaScript loose test `x == null`, true exactly for `null` and
`undefined`. -/
def jsNullish : JSVal → Bool
  | .undefined => true
  | .null => true
  | _ => false

/-- The enumerable own fields of a value: an object's fields;
`Object.keys` of a (non-string) primitive is empty. -/
def jsFields : JSVal → JSRecord
  | .obj _ fs => fs
  | _ => []

/-- `shallowEqual` from `util.ts` lines 6-28 (identical copies at
`connect.ts` lines 221-243 and 709-731): strict-equal values are equal;
a nullish argument makes the comparison false; otherwise compare key counts
and the values at the keys of `a`. -/
def shallowEqual (a b : JSVal) : Bool :=
  if jsStrictEqV a b then true
  else if jsNullish a || jsNullish b then false
  else shallowEqualFields (jsFields a) (jsFields b)

/-- `Object.assign({}, a, b)` (`connect.ts` lines 185-191): a fresh record
holding the keys of `a` in order (with `b`'s value whenever `b` also has the
key) followed by the bindings of `b` whose keys are not in `a`. -/
def objectAssign (a b : JSRecord) : JSRecord :=
  (a.map fun p => (p.1, match b.find? (fun q => q.1 == p.1) with
    | some q => q.2
    | none => p.2))
  ++ b.filter fun q => (a.find? (fun p => p.1 == q.1)).isNone

theorem jsStrictEq_refl (v : JSPrim) : jsStrictEq v v = true := by
  cases v <;> simp [jsStrictEq]

theorem shallowEqualFields_refl (r : JSRecord) :
    shallowEqualFields r r = true := by
  simp [shallowEqualFields, List.all_eq_true]
  intro k _
  exact jsStrictEq_refl _

/-- Bridging lemma: `shallowEqual` applied to two objects with distinct
references reduces to the key-comparison loop on their fields.  In `render`
(`connect.ts` lines 679-694) the first argument is the record freshly
allocated by `Object.assign`, so its reference differs from any previously
stored record. -/
theorem shallowEqual_obj_of_ne {ra rb : Nat} (a b : JSRecord) (h : ra ≠ rb) :
    shallowEqual (.obj ra a) (.obj rb b) = shallowEqualFields a b := by
  simp [shallowEqual, jsStrictEqV, jsNullish, jsFields, h]

/-- Bridging lemma: a fresh object compared against the initial
`_previousProps = null` is never shallow-equal. -/
theorem shallowEqual_obj_null (r : Nat) (a : JSRecord) :
    shallowEqual (.obj r a) .null = false := by
  simp [shallowEqual, jsStrictEqV, jsNullish]

/-! ## Store locator (`connect.ts` lines 164-181, markers at 213-219)

The host tree is modelled by numbering its nodes so that every upward link
(`parentNode` as well as the shadow-host link `host`) points to a node with a
strictly smaller number; any finite acyclic DOM admits such a numbering.  A
node exposes a store either as a provider (a truthy `reduxStore` property,
`isProvider`) or as another binding element holding a cached `_store` field
that quacks like a redux store (`isReduxStore`).  Stores themselves are
identified by numbers. -/

/-- The host tree as seen by the locator walk. -/
structure Dom where
  parentNode : Nat → Option Nat
  host : Nat → Option Nat
  reduxStore : Nat → Option Nat
  cachedStore : Nat → Option Nat
  parentNode_lt : ∀ i j, parentNode i = some j → j < i
  host_lt : ∀ i j, host i = some j → j < i

/-- One step of `node = node.parentNode || node.host`
(`connect.ts` line 170). -/
def nextOf (d : Dom) (i : Nat) : Option Nat :=
  match d.parentNode i with
  | some j => some j
  | none => d.host i

theorem nextOf_lt_self (d : Dom) {i j : Nat} (h : nextOf d i = some j) : j < i := by
  unfold nextOf at h
  cases hp : d.parentNode i with
  | some p =>
      rw [hp] at h
      exact d.parentNode_lt i j (hp.trans (by injection h with h; rw [h]))
  | none =>
      rw [hp] at h
      exact d.host_lt i j h

/-- What a node exposes to the walk: its provider store if `isProvider`
holds of it, else its cached store if `isReduxStore` holds of that field
(`connect.ts` lines 171-177). -/
def exposedStore (d : Dom) (j : Nat) : Option Nat :=
  match d.reduxStore j with
  | some s => some s
  | none => d.cachedStore j

/-- The locator loop, fuel-indexed.  Since every upward link strictly
decreases the node number, fuel `i` suffices when starting from node `i`
(`walkAux_fuel_irrel` below shows the fuel is immaterial from there). -/
def walkAux (d : Dom) : Nat → Nat → Option Nat
  | 0, _ => none
  | fuel + 1, i =>
    match nextOf d i with
    | none => none
    | some j =>
      match exposedStore d j with
      | some s => some s
      | none => walkAux d fuel j

/-- The `while (node = node.parentNode || node.host)` loop of `getStore`
(`connect.ts` lines 169-178) starting at node `i`: the store of the nearest
strict ancestor exposing one, or `none` when the walk reaches the top
without a match (upon which line 180 throws the missing-container error). -/
def walk (d : Dom) (i : Nat) : Option Nat :=
  walkAux d i i

/-- The chain of strict ancestors visited by the walk, nearest first. -/
def ancestorsAux (d : Dom) : Nat → Nat → List Nat
  | 0, _ => []
  | fuel + 1, i =>
    match nextOf d i with
    | none => []
    | some j => j :: ancestorsAux d fuel j

/-- The ancestor chain of node `i`, nearest first. -/
def ancestors (d : Dom) (i : Nat) : List Nat :=
  ancestorsAux d i i

/-- `getStore` (`connect.ts` lines 164-181): return the privately cached
store when present, without touching the tree; otherwise walk the ancestor
chain, and on success cache the result.  The returned pair is
(resolved store, new `_store` cache); `none` models the thrown
missing-container error. -/
def getStoreM (d : Dom) (cache : Option Nat) (i : Nat) : Option (Nat × Nat) :=
  match cache with
  | some s => some (s, s)
  | none =>
    match walk d i with
    | some s => some (s, s)
    | none => none

theorem walkAux_fuel_irrel (d : Dom) :
    ∀ f g i, i ≤ f → i ≤ g → walkAux d f i = walkAux d g i := by
  intro f
  induction f with
  | zero =>
      intro g i hf _
      interval_cases i
      cases g with
      | zero => rfl
      | succ g =>
          show walkAux d 0 0 = walkAux d (g + 1) 0
          unfold walkAux
          cases hn : nextOf d 0 with
          | none => simp
          | some j => exact absurd (nextOf_lt_self d hn) (Nat.not_lt_zero j)
  | succ f ih =>
      intro g i hf hg
      cases g with
      | zero =>
          interval_cases i
          unfold walkAux
          cases hn : nextOf d 0 with
          | none => simp
          | some j => exact absurd (nextOf_lt_self d hn) (Nat.not_lt_zero j)
      | succ g =>
          unfold walkAux
          cases hn : nextOf d i with
          | none => simp
          | some j =>
            simp only []
            cases he : exposedStore d j with
            | some s => simp
            | none =>
                simp only []
                have hj : j < i := nextOf_lt_self d hn
                exact ih g j (Nat.le_of_lt_succ (Nat.lt_of_lt_of_le hj hf))
                  (Nat.le_of_lt_succ (Nat.lt_of_lt_of_le hj hg))

theorem walkAux_eq_findSome (d : Dom) :
    ∀ f i, walkAux d f i = (ancestorsAux d f i).findSome? (exposedStore d) := by
  intro f
  induction f with
  | zero => intro i; rfl
  | succ f ih =>
      intro i
      unfold walkAux ancestorsAux
      cases hn : nextOf d i with
      | none => rfl
      | some j =>
        simp only [List.findSome?]
        cases he : exposedStore d j with
        | some s => rfl
        | none => exact ih j

/-- The walk finds exactly the first exposed store along the ancestor
chain, nearest ancestor first. -/
theorem walk_eq_findSome (d : Dom) (i : Nat) :
    walk d i = (ancestors d i).findSome? (exposedStore d) :=
  walkAux_eq_findSome d i i

/-! ## Binding-element dynamics (`connect.ts` lines 599-695, `fit-element.ts`)

The element is modelled against one redux store whose state has type `S`.
The projections prepared at construction / connection time
(`_preparedMapStateToProps`, `_preparedDispatch`) are fixed per element:
`render` invokes `getProps()` with the default `ownProps = {}`, and the
dispatch projection receives the same `store.dispatch` and `ownProps` on
every call, so its result record is a constant of the configuration. -/

/-- The per-element configuration fixed before connection. -/
structure Cfg (S : Type) where
  mapState : S → JSRecord
  dispatchProps : JSRecord

/-- `getProps` (`connect.ts` lines 668-677): merge the state projection and
the dispatch projection into a fresh record with
`Object.assign({}, stateProps, dispatchProps)`. -/
def getProps {S : Type} (cfg : Cfg S) (s : S) : JSRecord :=
  objectAssign (cfg.mapState s) cfg.dispatchProps

/-- The mutable element state together with its store and the microtask
queue.  `pendingTasks` counts the scheduled-but-unfired redraw callbacks of
this element; `renderLog` records each invocation of the rendering engine
with the props passed to the template; `unsubscribeCalls` counts invocations
of the stored `_unsubscribe` handle. -/
structure Sys (S : Type) where
  cache : Option Nat
  subscribed : Bool
  connectedFlag : Bool
  renderEnqueued : Bool
  pendingTasks : Nat
  previousProps : Option JSRecord
  storeState : S
  renderLog : List JSRecord
  unsubscribeCalls : Nat

variable {S A : Type}

/-- `enqueueRender` (`connect.ts` lines 638-643, `fit-element.ts`
lines 203-208): a no-op while a redraw is already pending, otherwise mark
pending and push the redraw callback onto the microtask queue. -/
def enqueueStep (sys : Sys S) : Sys S :=
  if sys.renderEnqueued then sys
  else { sys with renderEnqueued := true, pendingTasks := sys.pendingTasks + 1 }

/-- The comparison `shallowEqual(props, this._previousProps)` performed by
`render` (`connect.ts` line 686).  `props` is the record freshly allocated
by `Object.assign`, so the reference-equality shortcut of `shallowEqual`
never fires and the comparison reduces to the field loop
(`shallowEqual_obj_of_ne`); against the initial `null` snapshot it is false
(`shallowEqual_obj_null`). -/
def renderComparePrev (props : JSRecord) : Option JSRecord → Bool
  | none => false
  | some prev => shallowEqualFields props prev

/-- `render` (`connect.ts` lines 679-694): bail out when the element is not
connected; recompute the view properties from the live store state; skip the
redraw when they are shallow-equal to the previous-render snapshot;
otherwise replace the snapshot and invoke the rendering engine. -/
def renderStep (cfg : Cfg S) (sys : Sys S) : Sys S :=
  if !sys.connectedFlag then sys
  else
    let props := getProps cfg sys.storeState
    if renderComparePrev props sys.previousProps then sys
    else { sys with
      previousProps := some props,
      renderLog := sys.renderLog ++ [props] }

/-- Firing one scheduled microtask whose body is `body`: the callback
`() => { this._renderEnqueued = false; body }` clears the pending flag
before running the body (`connect.ts` lines 644-649). -/
def fireWith (body : Sys S → Sys S) (sys : Sys S) : Sys S :=
  body { sys with renderEnqueued := false, pendingTasks := sys.pendingTasks - 1 }

/-- The body of the scheduled redraw callback: render only while the
element is live (`if (this._isConnected) { this.render(); }`,
`connect.ts` lines 646-648). -/
def fireBody (cfg : Cfg S) (sys : Sys S) : Sys S :=
  if sys.connectedFlag then renderStep cfg sys else sys

/-- One scheduled redraw firing at microtask timing. -/
def fireTask (cfg : Cfg S) : Sys S → Sys S :=
  fireWith (fireBody cfg)

/-- A store dispatch: the reducer replaces the state, then redux runs the
subscribed listeners synchronously; the element's listener is
`() => this.enqueueRender()` (`connect.ts` line 626).  After
`disconnectedCallback` the listener has been unsubscribed and only the
state changes. -/
def dispatchStep (red : S → A → S) (a : A) (sys : Sys S) : Sys S :=
  let sys := { sys with storeState := red sys.storeState a }
  if sys.subscribed then enqueueStep sys else sys

/-- `connectedCallback` (`connect.ts` lines 619-629): set the liveness flag,
locate the store (a failure throws and propagates — the `.error` case
carries the element state at the throw), prepare the dispatch projection,
subscribe the listener, and enqueue the initial render. -/
def connectedCallback (d : Dom) (i : Nat) (sys : Sys S) :
    Except (Sys S) (Sys S) :=
  let sys := { sys with connectedFlag := true }
  match getStoreM d sys.cache i with
  | none => .error sys
  | some (_, c) =>
      .ok (enqueueStep { sys with cache := some c, subscribed := true })

/-- `disconnectedCallback` (`connect.ts` lines 631-636): drop the liveness
flag, call the stored unsubscribe handle once, and clear the `_store`
cache. -/
def disconnectedCallback (sys : Sys S) : Sys S :=
  { sys with
    connectedFlag := false,
    subscribed := false,
    unsubscribeCalls := sys.unsubscribeCalls + 1,
    cache := none }

/-- Draining the microtask queue at the end of the current synchronous
turn: fire scheduled redraws until none is pending (fuel-bounded loop). -/
def drainMicrotasks (cfg : Cfg S) : Nat → Sys S → Sys S
  | 0, sys => sys
  | fuel + 1, sys =>
    if sys.pendingTasks = 0 then sys
    else drainMicrotasks cfg fuel (fireTask cfg sys)

theorem drainMicrotasks_of_no_pending (cfg : Cfg S) (fuel : Nat) (sys : Sys S)
    (h : sys.pendingTasks = 0) : drainMicrotasks cfg fuel sys = sys := by
  cases fuel with
  | zero => rfl
  | succ fuel => simp [drainMicrotasks, h]

theorem dispatchStep_subscribed (red : S → A → S) (a : A) (sys : Sys S)
    (h : sys.subscribed = true) :
    dispatchStep red a sys =
      { sys with
        storeState := red sys.storeState a,
        renderEnqueued := true,
        pendingTasks :=
          if sys.renderEnqueued then sys.pendingTasks
          else sys.pendingTasks + 1 } := by
  unfold dispatchStep enqueueStep
  cases hq : sys.renderEnqueued <;> simp [h, hq]

theorem dispatchStep_while_pending (red : S → A → S) (a : A) (sys : Sys S)
    (hs : sys.subscribed = true) (hq : sys.renderEnqueued = true) :
    dispatchStep red a sys = { sys with storeState := red sys.storeState a } := by
  unfold dispatchStep enqueueStep
  simp [hs, hq]

theorem foldl_dispatch_enqueued (red : S → A → S) :
    ∀ (as : List A) (sys : Sys S), sys.subscribed = true →
      sys.renderEnqueued = true →
      as.foldl (fun t a => dispatchStep red a t) sys =
        { sys with storeState := as.foldl red sys.storeState } := by
  intro as
  induction as with
  | nil => intro sys _ _; simp
  | cons a as ih =>
      intro sys hs hq
      simp only [List.foldl_cons]
      rw [dispatchStep_while_pending red a sys hs hq]
      have h2 := ih { sys with storeState := red sys.storeState a } hs hq
      simp only [] at h2
      rw [h2]

/-! ## Lemmas about record lookup and `Object.assign` -/

theorem find?_filter_eq {α : Type} (l : List α) (p q : α → Bool) :
    (l.filter q).find? p = l.find? (fun a => p a && q a) := by
  induction l with
  | nil => rfl
  | cons a l ih =>
      simp only [List.filter_cons]
      by_cases hq : q a
      · by_cases hp : p a <;> simp [List.find?_cons, hq, hp, ih]
      · simp [List.find?_cons, hq, ih, Bool.and_false]

theorem find?_key_isSome_iff (r : JSRecord) (k : String) :
    (r.find? (fun p => p.1 == k)).isSome = true ↔ k ∈ recKeys r := by
  rw [List.find?_isSome]
  constructor
  · rintro ⟨p, hmem, hp⟩
    have hk : p.1 = k := by simpa using hp
    exact hk ▸ List.mem_map_of_mem Prod.fst hmem
  · intro hk
    rcases List.mem_map.mp hk with ⟨p, hmem, hp⟩
    exact ⟨p, hmem, by simp [hp]⟩

theorem recGetU_of_not_mem (r : JSRecord) (k : String) (h : k ∉ recKeys r) :
    recGetU r k = .undefined := by
  unfold recGetU
  cases hf : r.find? (fun p => p.1 == k) with
  | none => rfl
  | some p =>
      exact absurd ((find?_key_isSome_iff r k).mp (by simp [hf])) h

/-- The lookup behaviour of `Object.assign({}, a, b)`: `b`'s binding wins at
every key of `b`, and `a`'s binding survives everywhere else. -/
theorem objectAssign_getU (a b : JSRecord) (k : String) :
    recGetU (objectAssign a b) k =
      if k ∈ recKeys b then recGetU b k else recGetU a k := by
  unfold objectAssign recGetU
  rw [List.find?_append]
  rw [List.find?_map]
  have hpred : ((fun p : String × JSPrim => p.1 == k) ∘
      (fun p : String × JSPrim => (p.1, match b.find? (fun q => q.1 == p.1) with
        | some q => q.2
        | none => p.2))) = fun p : String × JSPrim => p.1 == k := by
    funext p
    rfl
  rw [hpred]
  cases ha : a.find? (fun p => p.1 == k) with
  | some p =>
      have hk : p.1 = k := by
        have := List.find?_some ha
        simpa using this
      simp only [Option.map_some', Option.or_some]
      rw [hk]
      cases hb : b.find? (fun q => q.1 == k) with
      | some q =>
          have hmem : k ∈ recKeys b := (find?_key_isSome_iff b k).mp (by simp [hb])
          simp [hmem]
      | none =>
          have hmem : k ∉ recKeys b := by
            intro hmem
            have := (find?_key_isSome_iff b k).mpr hmem
            simp [hb] at this
          simp [hmem]
  | none =>
      have hamem : k ∉ recKeys a := by
        intro hmem
        have := (find?_key_isSome_iff a k).mpr hmem
        simp [ha] at this
      simp only [Option.map_none', Option.none_or]
      rw [find?_filter_eq]
      have hpred2 : (fun q : String × JSPrim =>
          (q.1 == k) && (a.find? (fun p => p.1 == q.1)).isNone) =
          fun q : String × JSPrim => q.1 == k := by
        funext q
        by_cases hq : q.1 = k
        · subst hq
          simp [ha]
        · simp [hq]
      rw [hpred2]
      cases hb : b.find? (fun q => q.1 == k) with
      | some q =>
          have hmem : k ∈ recKeys b := (find?_key_isSome_iff b k).mp (by simp [hb])
          simp [hmem]
      | none =>
          have hmem : k ∉ recKeys b := by
            intro hmem
            have := (find?_key_isSome_iff b k).mpr hmem
            simp [hb] at this
          simp [hmem, ha]

/-- **C10.** When the state projection and the dispatch projection produce
records that share a key, `getProps` (which builds a fresh record with
`Object.assign({}, stateProps, dispatchProps)`, `connect.ts` lines 668-677)
holds the dispatch projection's value at that key; at every key the dispatch
projection does not produce, the state projection's value survives. -/
theorem C10_dispatch_projection_overrides_state_projection {S : Type}
    (cfg : Cfg S) (s : S) (k : String) :
    (k ∈ recKeys cfg.dispatchProps →
      recGetU (getProps cfg s) k = recGetU cfg.dispatchProps k) ∧
    (k ∉ recKeys cfg.dispatchProps →
      recGetU (getProps cfg s) k = recGetU (cfg.mapState s) k) := by
  unfold getProps
  rw [objectAssign_getU]
  constructor
  · intro h
    simp [h]
  · intro h
    simp [h]

/-- Witness for C10 at a concrete configuration: state and dispatch
projections sharing the key "value"; the merged props hold the dispatch
projection's binding. -/
theorem C10_witness :
    recGetU
      (getProps
        { mapState := fun n : Nat => [("value", JSPrim.prim n), ("extra", JSPrim.prim 7)],
          dispatchProps := [("value", JSPrim.objRef 3)] }
        5)
      "value" = JSPrim.objRef 3 := by
  have h := (C10_dispatch_projection_overrides_state_projection
    { mapState := fun n : Nat => [("value", JSPrim.prim n), ("extra", JSPrim.prim 7)],
      dispatchProps := [("value", JSPrim.objRef 3)] }
    5 "value").1 (by decide)
  rw [h]
  rfl

/-! ## Render-scheduler claims -/

theorem enqueueStep_of_pending (sys : Sys S) (h : sys.renderEnqueued = true) :
    enqueueStep sys = sys := by
  simp [enqueueStep, h]

theorem enqueueStep_of_not_pending (sys : Sys S) (h : sys.renderEnqueued = false) :
    enqueueStep sys =
      { sys with renderEnqueued := true, pendingTasks := sys.pendingTasks + 1 } := by
  simp [enqueueStep, h]

theorem enqueueStep_iterate_of_pending (sys : Sys S) (h : sys.renderEnqueued = true) :
    ∀ n : Nat, enqueueStep^[n] sys = sys := by
  intro n
  induction n with
  | zero => rfl
  | succ n ih =>
      rw [Function.iterate_succ_apply', ih, enqueueStep_of_pending sys h]

/-- **C5.** At most one redraw is pending per element at any time: calling
`enqueueRender` while a redraw is already pending is a no-op that leaves the
scheduler state unchanged (`connect.ts` lines 639-641), and any number of
`enqueueRender` calls starting from a quiescent scheduler leave at most one
scheduled redraw to fire. -/
theorem C5_at_most_one_pending_redraw (sys : Sys S) :
    (sys.renderEnqueued = true → enqueueStep sys = sys) ∧
    (sys.renderEnqueued = false → sys.pendingTasks = 0 →
      ∀ n : Nat, (enqueueStep^[n] sys).pendingTasks ≤ 1) := by
  refine ⟨fun h => enqueueStep_of_pending sys h, fun hq hp n => ?_⟩
  cases n with
  | zero => simp [hp]
  | succ n =>
      rw [Function.iterate_succ_apply, enqueueStep_of_not_pending sys hq,
        enqueueStep_iterate_of_pending _ rfl n]
      simp [hp]

/-- Witness for C5: a pending scheduler absorbs a further `enqueueRender`
unchanged, and three consecutive `enqueueRender` calls on a quiescent
element leave exactly at most one scheduled redraw. -/
theorem C5_witness :
    (enqueueStep
        { cache := some 0, subscribed := true, connectedFlag := true,
          renderEnqueued := true, pendingTasks := 1, previousProps := none,
          storeState := (0 : Nat), renderLog := [], unsubscribeCalls := 0 } =
      { cache := some 0, subscribed := true, connectedFlag := true,
        renderEnqueued := true, pendingTasks := 1, previousProps := none,
        storeState := (0 : Nat), renderLog := [], unsubscribeCalls := 0 }) ∧
    (enqueueStep^[3]
        { cache := some 0, subscribed := true, connectedFlag := true,
          renderEnqueued := false, pendingTasks := 0, previousProps := none,
          storeState := (0 : Nat), renderLog := [], unsubscribeCalls := 0 }).pendingTasks ≤ 1 :=
  ⟨(C5_at_most_one_pending_redraw _).1 rfl,
    (C5_at_most_one_pending_redraw _).2 rfl rfl 3⟩

/-- **C6.** The scheduled callback clears the pending flag before invoking
the redraw body (`connect.ts` lines 644-649), so an `enqueueRender` issued
synchronously from within the redraw body schedules a fresh, separate
redraw instead of being dropped. -/
theorem C6_pending_flag_cleared_before_redraw_body (sys : Sys S)
    (_hq : sys.renderEnqueued = true) (hp : sys.pendingTasks = 1) :
    (∀ body : Sys S → Sys S,
      fireWith body sys =
        body { sys with renderEnqueued := false, pendingTasks := 0 }) ∧
    (fireWith enqueueStep sys).renderEnqueued = true ∧
    (fireWith enqueueStep sys).pendingTasks = 1 := by
  refine ⟨fun body => by simp [fireWith, hp], ?_, ?_⟩ <;>
    simp [fireWith, enqueueStep, hp]

/-- Witness for C6: firing the scheduled redraw of a pending element with a
body that immediately re-enqueues leaves a fresh redraw scheduled. -/
theorem C6_witness :
    (fireWith enqueueStep
        { cache := some 0, subscribed := true, connectedFlag := true,
          renderEnqueued := true, pendingTasks := 1, previousProps := none,
          storeState := (0 : Nat), renderLog := [], unsubscribeCalls := 0 }).renderEnqueued
      = true :=
  (C6_pending_flag_cleared_before_redraw_body _ rfl rfl).2.1

/-! ## Detach claims -/

theorem dispatchStep_unsubscribed (red : S → A → S) (a : A) (sys : Sys S)
    (h : sys.subscribed = false) :
    dispatchStep red a sys = { sys with storeState := red sys.storeState a } := by
  simp [dispatchStep, h]

theorem foldl_dispatch_unsubscribed (red : S → A → S) :
    ∀ (as : List A) (sys : Sys S), sys.subscribed = false →
      as.foldl (fun t a => dispatchStep red a t) sys =
        { sys with storeState := as.foldl red sys.storeState } := by
  intro as
  induction as with
  | nil => intro sys _; simp
  | cons a as ih =>
      intro sys hs
      simp only [List.foldl_cons]
      rw [dispatchStep_unsubscribed red a sys hs]
      have h2 := ih { sys with storeState := red sys.storeState a } hs
      simp only [] at h2
      rw [h2]

/-- **C8.** `disconnectedCallback` (`connect.ts` lines 631-636) calls the
stored unsubscribe handle exactly once and clears the `_store` cache; any
number of further store notifications afterwards only move the store state —
they enqueue no redraw, append nothing to the render log, and raise no error
(every step below is a total function). -/
theorem C8_detach_releases_subscription {S A : Type} (red : S → A → S)
    (as : List A) (sys : Sys S) :
    (disconnectedCallback sys).unsubscribeCalls = sys.unsubscribeCalls + 1 ∧
    (disconnectedCallback sys).subscribed = false ∧
    (disconnectedCallback sys).cache = none ∧
    as.foldl (fun t a => dispatchStep red a t) (disconnectedCallback sys) =
      { disconnectedCallback sys with
        storeState := as.foldl red sys.storeState } := by
  refine ⟨rfl, rfl, rfl, ?_⟩
  exact foldl_dispatch_unsubscribed red as _ rfl

/-- **C9.** If a redraw is pending and the element is detached before it
fires, the firing callback is a guarded no-op: the `_isConnected` check of
the scheduled callback (`connect.ts` lines 646-648) skips the render body,
so the fire only consumes the scheduled task and clears the pending flag —
no render happens and no error is raised (the step is a total function). -/
theorem C9_detached_fire_guarded_noop (cfg : Cfg S) (sys : Sys S)
    (_hq : sys.renderEnqueued = true) :
    fireTask cfg (disconnectedCallback sys) =
      { disconnectedCallback sys with
        renderEnqueued := false,
        pendingTasks := sys.pendingTasks - 1 } ∧
    (fireTask cfg (disconnectedCallback sys)).renderLog = sys.renderLog ∧
    (fireTask cfg (disconnectedCallback sys)).previousProps = sys.previousProps := by
  refine ⟨?_, ?_, ?_⟩ <;> simp [fireTask, fireWith, fireBody, disconnectedCallback]

/-- Witness for C9: an element with one pending redraw is detached; the
redraw then fires without rendering. -/
theorem C9_witness :
    (fireTask
        { mapState := fun n : Nat => [("count", JSPrim.prim n)],
          dispatchProps := [] }
        (disconnectedCallback
          { cache := some 0, subscribed := true, connectedFlag := true,
            renderEnqueued := true, pendingTasks := 1, previousProps := none,
            storeState := (0 : Nat), renderLog := [], unsubscribeCalls := 0 })).renderLog
      = [] :=
  (C9_detached_fire_guarded_noop _ _ rfl).2.1

/-! ## Render suppression and idempotence -/

/-- **C7.** When a redraw fires on a connected element and the freshly
computed view properties are shallow-equal to the previous-render snapshot,
`render` (`connect.ts` lines 679-694) performs no render call and leaves the
snapshot unchanged; otherwise it renders and replaces the snapshot wholesale
with the new record.  Consequently rendering twice at the same store state
has the effect of rendering once. -/
theorem C7_shallow_equal_suppresses_render (cfg : Cfg S) (sys : Sys S)
    (hc : sys.connectedFlag = true) :
    (renderComparePrev (getProps cfg sys.storeState) sys.previousProps = true →
      renderStep cfg sys = sys) ∧
    (renderComparePrev (getProps cfg sys.storeState) sys.previousProps = false →
      renderStep cfg sys =
        { sys with
          previousProps := some (getProps cfg sys.storeState),
          renderLog := sys.renderLog ++ [getProps cfg sys.storeState] }) ∧
    renderStep cfg (renderStep cfg sys) = renderStep cfg sys := by
  refine ⟨fun h => by simp [renderStep, hc, h], fun h => by simp [renderStep, hc, h], ?_⟩
  cases h : renderComparePrev (getProps cfg sys.storeState) sys.previousProps with
  | true =>
      have h1 : renderStep cfg sys = sys := by simp [renderStep, hc, h]
      rw [h1]
      exact h1
  | false =>
      have h1 : renderStep cfg sys =
          { sys with
            previousProps := some (getProps cfg sys.storeState),
            renderLog := sys.renderLog ++ [getProps cfg sys.storeState] } := by
        simp [renderStep, hc, h]
      rw [h1]
      simp [renderStep, hc, renderComparePrev, shallowEqualFields_refl]

/-- Witness for C7: with the snapshot already holding the current props the
redraw is suppressed, and rendering is idempotent at a fixed state. -/
theorem C7_witness :
    (renderStep
        { mapState := fun n : Nat => [("count", JSPrim.prim n)],
          dispatchProps := [("inc", JSPrim.objRef 9)] }
        { cache := some 0, subscribed := true, connectedFlag := true,
          renderEnqueued := false, pendingTasks := 0,
          previousProps := some [("count", JSPrim.prim 0), ("inc", JSPrim.objRef 9)],
          storeState := (0 : Nat), renderLog := [], unsubscribeCalls := 0 } =
      { cache := some 0, subscribed := true, connectedFlag := true,
        renderEnqueued := false, pendingTasks := 0,
        previousProps := some [("count", JSPrim.prim 0), ("inc", JSPrim.objRef 9)],
        storeState := (0 : Nat), renderLog := [], unsubscribeCalls := 0 }) :=
  (C7_shallow_equal_suppresses_render _ _ rfl).1 (by decide)

/-! ## Store-locator claims -/

theorem findSome?_first_hit {α β : Type} (f : α → Option β) (s : β) :
    ∀ (pre : List α) (j : α) (post : List α),
      (∀ k ∈ pre, f k = none) → f j = some s →
      (pre ++ j :: post).findSome? f = some s := by
  intro pre
  induction pre with
  | nil =>
      intro j post _ hj
      simp [List.findSome?, hj]
  | cons k pre ih =>
      intro j post hpre hj
      have hk : f k = none := hpre k (by simp)
      simp only [List.cons_append, List.findSome?, hk]
      exact ih j post (fun x hx => hpre x (by simp [hx])) hj

/-- **C3.** The store locator first returns the privately cached container
when one is set — without walking any tree, so the result is independent of
the surrounding tree while the cache is set; with an empty cache it walks
the ancestor chain (through parent links and shadow-host links alike) and
returns, caching it, the container of the first exposing ancestor nearest
the element — in particular, with nested containers, an element below the
inner provider resolves to the inner one even when an outer one also
exposes a store. -/
theorem C3_store_locator_cache_and_nearest_ancestor :
    (∀ (d d' : Dom) (c i : Nat),
      getStoreM d (some c) i = some (c, c) ∧
      getStoreM d (some c) i = getStoreM d' (some c) i) ∧
    (∀ (d : Dom) (i : Nat),
      getStoreM d none i =
        match (ancestors d i).findSome? (exposedStore d) with
        | some s => some (s, s)
        | none => none) ∧
    (∀ (d : Dom) (i j : Nat) (pre post : List Nat) (s : Nat),
      ancestors d i = pre ++ j :: post →
      (∀ k ∈ pre, exposedStore d k = none) →
      exposedStore d j = some s →
      getStoreM d none i = some (s, s)) := by
  refine ⟨fun d d' c i => ⟨rfl, rfl⟩, fun d i => ?_, fun d i j pre post s hchain hpre hj => ?_⟩
  · unfold getStoreM
    rw [walk_eq_findSome]
  · unfold getStoreM
    rw [walk_eq_findSome, hchain, findSome?_first_hit (exposedStore d) s pre j post hpre hj]

/-- A host tree with an outer provider (node 0, store 10), an inner
provider below it (node 1, store 20), and an element below the inner
provider (node 2). -/
def nestedDom : Dom where
  parentNode := fun i => if i = 2 then some 1 else if i = 1 then some 0 else none
  host := fun _ => none
  reduxStore := fun i => if i = 0 then some 10 else if i = 1 then some 20 else none
  cachedStore := fun _ => none
  parentNode_lt := by
    intro i j h
    simp only [] at h
    split_ifs at h with h2 h1
    · injection h with h3; omega
    · injection h with h3; omega
  host_lt := by
    intro i j h
    simp at h

/-- Witness for C3: in the nested tree the element resolves to the inner
store 20, not the outer store 10, and the result is cached. -/
theorem C3_witness :
    getStoreM nestedDom none 2 = some (20, 20) :=
  C3_store_locator_cache_and_nearest_ancestor.2.2 nestedDom 2 1 [] [0] 20
    (by decide) (by simp) (by decide)

/-- **C2.** Attaching a binding element that has no cached own store while
no ancestor exposes a container makes `connectedCallback` raise the
missing-container error (`connect.ts` line 665): the attach sequence aborts
before any subscription, any enqueued redraw and any render attempt — the
carried error state differs from the pre-attach state only in the liveness
flag set on entry — and the error is not caught locally, propagating to the
caller; no retry happens. -/
theorem C2_missing_container_error_on_attach (d : Dom) (i : Nat) (sys : Sys S)
    (hcache : sys.cache = none) (hwalk : walk d i = none) :
    connectedCallback d i sys = .error { sys with connectedFlag := true } := by
  unfold connectedCallback getStoreM
  simp [hcache, hwalk]

/-- A host tree exposing no store anywhere. -/
def emptyDom : Dom where
  parentNode := fun _ => none
  host := fun _ => none
  reduxStore := fun _ => none
  cachedStore := fun _ => none
  parentNode_lt := by intro i j h; simp at h
  host_lt := by intro i j h; simp at h

/-- Witness for C2: attaching a fresh element in a provider-less tree
fails with the missing-container error and leaves the element without
subscription or pending redraw. -/
theorem C2_witness :
    connectedCallback emptyDom 3
        { cache := none, subscribed := false, connectedFlag := false,
          renderEnqueued := false, pendingTasks := 0, previousProps := none,
          storeState := (0 : Nat), renderLog := [], unsubscribeCalls := 0 } =
      .error
        { cache := none, subscribed := false, connectedFlag := true,
          renderEnqueued := false, pendingTasks := 0, previousProps := none,
          storeState := (0 : Nat), renderLog := [], unsubscribeCalls := 0 } :=
  C2_missing_container_error_on_attach emptyDom 3 _ rfl rfl

/-! ## Coalescing claim -/

/-- A synchronous sequence of store dispatches within one task-queue turn:
each dispatch runs the reducer and then the subscribed listeners, all
synchronously, before the microtask queue gets a chance to drain. -/
def turnSteps (red : S → A → S) (as : List A) (sys : Sys S) : Sys S :=
  as.foldl (fun t x => dispatchStep red x t) sys

/-- **C1.** Any non-empty sequence of synchronous store notifications within
one task-queue turn, hitting a connected, quiescent element, leaves exactly
one scheduled redraw and renders nothing during the turn (first equation);
when the microtask queue then drains, that single redraw fires and — because
`render` recomputes the view properties at fire time (`connect.ts`
line 684) rather than capturing them at enqueue time — it renders exactly
once, with the properties derived from the store state after the last
notification; no intermediate-state properties are ever rendered (second
equation: the render log grows by exactly that one record). -/
theorem C1_notifications_coalesce_to_one_fresh_redraw
    (cfg : Cfg S) (red : S → A → S) (sys : Sys S) (a : A) (as : List A)
    (fuel : Nat)
    (hsub : sys.subscribed = true) (hconn : sys.connectedFlag = true)
    (hq : sys.renderEnqueued = false) (hp : sys.pendingTasks = 0)
    (hfuel : 1 ≤ fuel)
    (hneq : renderComparePrev
      (getProps cfg ((a :: as).foldl red sys.storeState))
      sys.previousProps = false) :
    turnSteps red (a :: as) sys =
      { sys with
        storeState := (a :: as).foldl red sys.storeState,
        renderEnqueued := true,
        pendingTasks := 1 } ∧
    drainMicrotasks cfg fuel (turnSteps red (a :: as) sys) =
      { sys with
        storeState := (a :: as).foldl red sys.storeState,
        renderEnqueued := false,
        pendingTasks := 0,
        previousProps := some (getProps cfg ((a :: as).foldl red sys.storeState)),
        renderLog :=
          sys.renderLog ++ [getProps cfg ((a :: as).foldl red sys.storeState)] } := by
  have h1 : dispatchStep red a sys =
      { sys with
        storeState := red sys.storeState a,
        renderEnqueued := true,
        pendingTasks := 1 } := by
    rw [dispatchStep_subscribed red a sys hsub, hq, hp]
    simp
  have hturn : turnSteps red (a :: as) sys =
      { sys with
        storeState := (a :: as).foldl red sys.storeState,
        renderEnqueued := true,
        pendingTasks := 1 } := by
    show (a :: as).foldl (fun t x => dispatchStep red x t) sys = _
    simp only [List.foldl_cons]
    rw [h1]
    have h2 := foldl_dispatch_enqueued red as
      { sys with
        storeState := red sys.storeState a,
        renderEnqueued := true,
        pendingTasks := 1 } hsub rfl
    simp only [] at h2
    rw [h2]
  refine ⟨hturn, ?_⟩
  obtain ⟨f, rfl⟩ : ∃ f, fuel = f + 1 := ⟨fuel - 1, by omega⟩
  have hfire : fireTask cfg
      { sys with
        storeState := (a :: as).foldl red sys.storeState,
        renderEnqueued := true,
        pendingTasks := 1 } =
      { sys with
        storeState := (a :: as).foldl red sys.storeState,
        renderEnqueued := false,
        pendingTasks := 0,
        previousProps := some (getProps cfg ((a :: as).foldl red sys.storeState)),
        renderLog :=
          sys.renderLog ++ [getProps cfg ((a :: as).foldl red sys.storeState)] } := by
    have hneq2 := hneq
    simp only [List.foldl_cons] at hneq2
    unfold fireTask fireWith fireBody renderStep
    simp [hconn, hneq2]
  rw [hturn]
  show drainMicrotasks cfg (f + 1) _ = _
  unfold drainMicrotasks
  simp only []
  rw [if_neg (by simp)]
  rw [hfire]
  exact drainMicrotasks_of_no_pending cfg f _ rfl

/-- The spec's concrete configuration: integer state projected to a
`count` property, one dispatch-bound action property. -/
def counterCfg : Cfg Nat where
  mapState := fun n => [("count", JSPrim.prim n)]
  dispatchProps := [("inc", JSPrim.objRef 9)]

/-- An increment action on the integer store. -/
def incReducer : Nat → Unit → Nat := fun s _ => s + 1

/-- A connected, quiescent element that has rendered `count = 0`. -/
def connectedSys : Sys Nat where
  cache := some 0
  subscribed := true
  connectedFlag := true
  renderEnqueued := false
  pendingTasks := 0
  previousProps := some [("count", JSPrim.prim 0), ("inc", JSPrim.objRef 9)]
  storeState := 0
  renderLog := []
  unsubscribeCalls := 0

/-- Witness for C1, the spec's concrete scenario: two synchronous increments
from state 0, then one microtask drain, produce exactly one render with
`count = 2` and never an intermediate `count = 1`. -/
theorem C1_witness :
    drainMicrotasks counterCfg 1 (turnSteps incReducer [(), ()] connectedSys) =
      { cache := some 0, subscribed := true, connectedFlag := true,
        renderEnqueued := false, pendingTasks := 0,
        previousProps := some [("count", JSPrim.prim 2), ("inc", JSPrim.objRef 9)],
        storeState := 2,
        renderLog := [[("count", JSPrim.prim 2), ("inc", JSPrim.objRef 9)]],
        unsubscribeCalls := 0 } := by
  have h := (C1_notifications_coalesce_to_one_fresh_redraw counterCfg incReducer
    connectedSys () [()] 1 rfl rfl rfl rfl (by decide) (by decide)).2
  exact h

/-! ## Shallow-equality claim -/

/-- **C4 counterexample.** The claim states that `equal(a, b)` returns
false whenever the key sets of `a` and `b` differ.  The code refutes this:
`shallowEqual` only compares key counts and then reads `b` at the keys of
`a`, treating absent keys as `undefined` — so `{x: undefined}` and
`{y: 5}` compare equal although their key sets are disjoint. -/
theorem C4_counterexample :
    shallowEqual (.obj 0 [("x", JSPrim.undefined)]) (.obj 1 [("y", JSPrim.prim 5)]) = true ∧
    recKeys (jsFields (JSVal.obj 0 [("x", JSPrim.undefined)])) = ["x"] ∧
    recKeys (jsFields (JSVal.obj 1 [("y", JSPrim.prim 5)])) = ["y"] := by
  decide

/-- **C4 (amended).** `shallowEqual` returns true for strictly identical
values, and for two non-null composite values with duplicate-free, equal
key sets all of whose keys hold identical sub-values.  It returns false
when either argument is null/absent (and they are not identical), when two
composite values have different numbers of keys, and when some key of `a`
reads (absent keys reading as `undefined`) a different value in `b` — but
key sets that merely differ while agreeing in count and in the reads at
`a`'s keys may compare equal, as the counterexample shows. -/
theorem C4_shallowEqual_amended (a b : JSVal) :
    (jsStrictEqV a b = true → shallowEqual a b = true) ∧
    (jsStrictEqV a b = false → (jsNullish a = true ∨ jsNullish b = true) →
      shallowEqual a b = false) ∧
    (∀ (ra rb : Nat) (fa fb : JSRecord), a = .obj ra fa → b = .obj rb fb →
      (recKeys fa).Nodup → (recKeys fb).Nodup →
      (∀ k, k ∈ recKeys fa ↔ k ∈ recKeys fb) →
      (∀ k ∈ recKeys fa, jsStrictEq (recGetU fa k) (recGetU fb k) = true) →
      shallowEqual a b = true) ∧
    (∀ (ra rb : Nat) (fa fb : JSRecord), a = .obj ra fa → b = .obj rb fb →
      jsStrictEqV a b = false →
      (recKeys fa).length ≠ (recKeys fb).length →
      shallowEqual a b = false) ∧
    (∀ (ra rb : Nat) (fa fb : JSRecord), a = .obj ra fa → b = .obj rb fb →
      jsStrictEqV a b = false →
      ∀ k, k ∈ recKeys fa →
        jsStrictEq (recGetU fa k) (recGetU fb k) = false →
        shallowEqual a b = false) := by
  refine ⟨?_, ?_, ?_, ?_, ?_⟩
  · intro h
    simp [shallowEqual, h]
  · intro h hn
    rcases hn with hn | hn <;> simp [shallowEqual, h, hn]
  · rintro ra rb fa fb rfl rfl hnda hndb hiff hvals
    cases hid : jsStrictEqV (JSVal.obj ra fa) (JSVal.obj rb fb) with
    | true => simp [shallowEqual, hid]
    | false =>
        have hlen : (recKeys fa).length = (recKeys fb).length := by
          have hfin : (recKeys fa).toFinset = (recKeys fb).toFinset := by
            ext k
            simp [List.mem_toFinset, hiff k]
          calc (recKeys fa).length
              = (recKeys fa).toFinset.card := (List.toFinset_card_of_nodup hnda).symm
            _ = (recKeys fb).toFinset.card := by rw [hfin]
            _ = (recKeys fb).length := List.toFinset_card_of_nodup hndb
        simp [shallowEqual, hid, jsNullish, jsFields, shallowEqualFields, hlen,
          List.all_eq_true]
        intro k hk
        exact hvals k hk
  · rintro ra rb fa fb rfl rfl hid hlen
    have hbne : ((recKeys fa).length != (recKeys fb).length) = true := by
      simpa [bne_iff_ne] using hlen
    simp [shallowEqual, hid, jsNullish, jsFields, shallowEqualFields, hbne]
  · rintro ra rb fa fb rfl rfl hid k hk hkneq
    cases hlen : ((recKeys fa).length != (recKeys fb).length) with
    | true => simp [shallowEqual, hid, jsNullish, jsFields, shallowEqualFields, hlen]
    | false =>
        simp only [shallowEqual, hid, jsNullish, jsFields, shallowEqualFields, hlen,
          Bool.false_eq_true, if_false, Bool.or_self]
        rw [List.all_eq_false]
        exact ⟨k, hk, by simp [hkneq]⟩

/-- Witness for the amended C4: two distinct objects with equal key sets
and identical values at every key compare shallow-equal. -/
theorem C4_witness :
    shallowEqual (.obj 0 [("x", JSPrim.prim 1)]) (.obj 1 [("x", JSPrim.prim 1)]) = true :=
  (C4_shallowEqual_amended (.obj 0 [("x", JSPrim.prim 1)])
      (.obj 1 [("x", JSPrim.prim 1)])).2.2.1 0 1 _ _ rfl rfl
    (by decide) (by decide) (fun k => Iff.rfl) (by decide)

end FitHtml
